import Mathlib

/-!
Verification development for the UBC Rocket ground-station telemetry pipeline.

The repository ships the Co-Pilot rocket profile, the connection-factory
interface and the integration tests; the pipeline core (packet codec,
time-series store, event bus, worker threads) is specified in spec.md but its
implementation is not among the shipped sources, so those components are
modelled here directly from the specification text (each such definition says
so in its doc comment).  Concurrency is modelled by sequential state passing:
a bundle insertion is one atomic step of the transition system, matching the
spec's all-or-nothing visibility rule.
-/

namespace GroundStation

/-- Modelled from the spec: a FieldValue is a tagged union over
numeric, boolean and text payloads (spec section 3).  The missing module is
the data-model part of `main_window.rocket_data`. -/
inductive FieldValue where
  | num : Int → FieldValue
  | flag : Bool → FieldValue
  | text : String → FieldValue
deriving DecidableEq, Repr

/-- Modelled from the spec: one entry of a TimeSeries, a pair of a monotonic
sequence number and a FieldValue (spec section 3). -/
structure TimeSeriesEntry where
  seq : Nat
  val : FieldValue
deriving DecidableEq, Repr

/-- Modelled from the spec: per FieldId, an append-only ordered sequence of
(sequence number, FieldValue) pairs. -/
abbrev TimeSeries := List TimeSeriesEntry

/-- Modelled from the spec: a Bundle is an ordered set of
(FieldId, FieldValue) pairs decoded from a single RawPacket; FieldIds are
small integers (spec section 3). -/
abbrev Bundle := List (Nat × FieldValue)

/-- Modelled from the spec: the Time-Series Store, a mapping from FieldId to
its TimeSeries (kept as an association list) together with the next sequence
number to hand out.  The missing module is `main_window.rocket_data`. -/
structure Store where
  nextSeq : Nat
  data : List (Nat × TimeSeries)
deriving DecidableEq, Repr

/-- The series stored for a field id in the association list ([] when the
field id has no entry yet). -/
def seriesIn (data : List (Nat × TimeSeries)) (fid : Nat) : TimeSeries :=
  match data with
  | [] => []
  | (k, ts) :: rest => if k = fid then ts else seriesIn rest fid

/-- Whether the association list has an entry for the field id. -/
def hasField (data : List (Nat × TimeSeries)) (fid : Nat) : Bool :=
  match data with
  | [] => false
  | (k, _) :: rest => (k = fid) || hasField rest fid

/-- Append one entry to the series of a field id, creating the entry at the
end of the list when the field id is new (so a FieldId, once present, is
never removed). -/
def appendToSeries (data : List (Nat × TimeSeries)) (fid : Nat)
    (e : TimeSeriesEntry) : List (Nat × TimeSeries) :=
  match data with
  | [] => [(fid, [e])]
  | (k, ts) :: rest =>
      if k = fid then (k, ts ++ [e]) :: rest
      else (k, ts) :: appendToSeries rest fid e

def Store.empty : Store := ⟨0, []⟩

/-- Insert a single (FieldId, FieldValue) pair, consuming one sequence
number. -/
def Store.insertPair (s : Store) (p : Nat × FieldValue) : Store :=
  ⟨s.nextSeq + 1, appendToSeries s.data p.1 ⟨s.nextSeq, p.2⟩⟩

/-- Modelled from the spec: `insert_bundle` appends every pair of the Bundle
to the store in bundle order; in the transition system of this development a
whole-bundle insertion is one atomic step (spec section 4.5, all-or-nothing
visibility). -/
def Store.insert_bundle (s : Store) (b : Bundle) : Store :=
  b.foldl Store.insertPair s

/-- The series held for a field id. -/
def Store.seriesOf (s : Store) (fid : Nat) : TimeSeries :=
  seriesIn s.data fid

/-- Modelled from the spec: `latest(FieldId) → FieldValue | absent`
(spec section 4.5); the integration tests reach it as
`rocket_data.lastvalue`. -/
def Store.latest (s : Store) (fid : Nat) : Option FieldValue :=
  ((s.seriesOf fid).getLast?).map TimeSeriesEntry.val

/-- Modelled from the spec: `history_since(FieldId, seq)` returns the ordered
values whose sequence number is at least `seq` (spec section 4.5). -/
def Store.history_since (s : Store) (fid : Nat) (n : Nat) : List FieldValue :=
  ((s.seriesOf fid).filter (fun e => decide (n ≤ e.seq))).map TimeSeriesEntry.val

/-- The value of the last pair of the bundle carrying the given field id,
if any. -/
def lastPairValue (b : Bundle) (fid : Nat) : Option FieldValue :=
  (b.reverse.find? (fun p => p.1 == fid)).map Prod.snd

theorem seriesIn_appendToSeries (data : List (Nat × TimeSeries)) (k : Nat)
    (e : TimeSeriesEntry) (fid : Nat) :
    seriesIn (appendToSeries data k e) fid =
      if k = fid then seriesIn data fid ++ [e] else seriesIn data fid := by
  induction data with
  | nil =>
      by_cases h : k = fid <;> simp [appendToSeries, seriesIn, h]
  | cons hd rest ih =>
      obtain ⟨k', ts⟩ := hd
      by_cases hk : k' = k
      · subst hk
        by_cases h : k' = fid <;> simp [appendToSeries, seriesIn, h]
      · by_cases h : k' = fid
        · subst h
          have hkf : ¬ k = k' := fun hh => hk hh.symm
          simp [appendToSeries, seriesIn, hk, hkf]
        · simp [appendToSeries, seriesIn, hk, h, ih]

theorem hasField_appendToSeries (data : List (Nat × TimeSeries)) (k : Nat)
    (e : TimeSeriesEntry) (fid : Nat) :
    hasField (appendToSeries data k e) fid = (hasField data fid || (k = fid)) := by
  induction data with
  | nil => simp [appendToSeries, hasField]
  | cons hd rest ih =>
      obtain ⟨k', ts⟩ := hd
      by_cases hk : k' = k
      · subst hk
        by_cases h : k' = fid <;> simp [appendToSeries, hasField, h]
      · simp [appendToSeries, hasField, hk, ih, Bool.or_assoc]

theorem seriesOf_insertPair (s : Store) (p : Nat × FieldValue) (fid : Nat) :
    (s.insertPair p).seriesOf fid =
      if p.1 = fid then s.seriesOf fid ++ [⟨s.nextSeq, p.2⟩] else s.seriesOf fid := by
  simp [Store.insertPair, Store.seriesOf, seriesIn_appendToSeries]

theorem latest_insertPair (s : Store) (p : Nat × FieldValue) (fid : Nat) :
    (s.insertPair p).latest fid =
      if p.1 = fid then some p.2 else s.latest fid := by
  by_cases h : p.1 = fid <;>
    simp [Store.latest, seriesOf_insertPair, h]

theorem latest_insert_bundle (s : Store) (b : Bundle) (fid : Nat) :
    (s.insert_bundle b).latest fid =
      match lastPairValue b fid with
      | some v => some v
      | none => s.latest fid := by
  induction b generalizing s with
  | nil => simp [Store.insert_bundle, lastPairValue]
  | cons p rest ih =>
      have hsplit : lastPairValue (p :: rest) fid =
          match lastPairValue rest fid with
          | some v => some v
          | none => if p.1 = fid then some p.2 else none := by
        simp only [lastPairValue, List.reverse_cons, List.find?_append]
        cases hfind : (rest.reverse.find? (fun q => q.1 == fid)) with
        | some v => simp [Option.orElse, hfind]
        | none =>
            by_cases h : p.1 = fid
            · simp [Option.orElse, hfind, List.find?, h]
            · have hb : (p.1 == fid) = false := by simp [h]
              simp [Option.orElse, hfind, List.find?, hb, h]
      have hstep : (s.insert_bundle (p :: rest)) = (s.insertPair p).insert_bundle rest := by
        simp [Store.insert_bundle]
      rw [hstep, ih, hsplit]
      cases hrest : lastPairValue rest fid with
      | some v => simp
      | none =>
          by_cases h : p.1 = fid <;> simp [latest_insertPair, h]

theorem latest_insert_bundle_untouched (s : Store) (b : Bundle) (fid : Nat)
    (h : ∀ p ∈ b, p.1 ≠ fid) :
    (s.insert_bundle b).latest fid = s.latest fid := by
  rw [latest_insert_bundle]
  have hnone : lastPairValue b fid = none := by
    unfold lastPairValue
    rw [List.find?_eq_none.mpr]
    · simp
    · intro p hp
      have := h p (List.mem_reverse.mp hp)
      simp [this]
  rw [hnone]

theorem lastPairValue_const (b : Bundle) (fid : Nat) (v : FieldValue)
    (hall : ∀ p ∈ b, p.1 = fid → p.2 = v) (hmem : ∃ p ∈ b, p.1 = fid) :
    lastPairValue b fid = some v := by
  unfold lastPairValue
  obtain ⟨q, hq, hqf⟩ := hmem
  have hex : ∃ p ∈ b.reverse, (fun p : Nat × FieldValue => p.1 == fid) p := by
    exact ⟨q, List.mem_reverse.mpr hq, by simp [hqf]⟩
  obtain ⟨p, hfind⟩ := Option.isSome_iff_exists.mp (List.find?_isSome.mpr hex)
  have hpb : p ∈ b := List.mem_reverse.mp (List.mem_of_find?_eq_some hfind)
  have hpf : p.1 = fid := by
    have := List.find?_some hfind
    simpa using this
  rw [hfind]
  simp [hall p hpb hpf]

theorem latest_insert_bundle_const (s : Store) (b : Bundle) (fid : Nat)
    (v : FieldValue) (hall : ∀ p ∈ b, p.1 = fid → p.2 = v)
    (hmem : ∃ p ∈ b, p.1 = fid) :
    (s.insert_bundle b).latest fid = some v := by
  rw [latest_insert_bundle, lastPairValue_const b fid v hall hmem]

/-- The reachable states of the store transition system along a list of
bundle insertions: the initial state and the state after each complete
`insert_bundle` step.  Insertion being one step is the shallow rendering of
the spec's atomicity guarantee (spec sections 3 and 4.5): no state with a
half-inserted bundle exists. -/
def traceStates (s : Store) : List Bundle → List Store
  | [] => [s]
  | b :: bs => s :: traceStates (s.insert_bundle b) bs

theorem traceStates_invariant (P : Store → Prop)
    (bs : List Bundle) (s : Store) (hs : P s)
    (hstep : ∀ st b, b ∈ bs → P st → P (st.insert_bundle b)) :
    ∀ st ∈ traceStates s bs, P st := by
  induction bs generalizing s with
  | nil =>
      intro st hst
      simp [traceStates] at hst
      exact hst ▸ hs
  | cons b rest ih =>
      intro st hst
      simp only [traceStates, List.mem_cons] at hst
      rcases hst with h | h
      · exact h ▸ hs
      · exact ih (s.insert_bundle b)
          (hstep s b (List.mem_cons_self b rest) hs)
          (fun st' b' hb' => hstep st' b' (List.mem_cons_of_mem b hb')) st h

/-- C1.  Bundle insertion is atomic.  After `insert_bundle` of the Bundle
holding the pairs (A, 1) and (B, 2) completes, `latest A = 1` and
`latest B = 2` hold together; and along any run whose bundles are either
that Bundle or bundles not touching A or B, started from a store holding
neither field, every reachable state shows A's update exactly when it shows
B's — no reachable state shows A updated without B. -/
theorem bundle_insert_atomic (A B : Nat) (hAB : A ≠ B) (s : Store)
    (bs : List Bundle)
    (hbs : ∀ b ∈ bs, b = [(A, FieldValue.num 1), (B, FieldValue.num 2)] ∨
        (∀ p ∈ b, p.1 ≠ A ∧ p.1 ≠ B))
    (hs : s.latest A = none ∧ s.latest B = none) :
    ((s.insert_bundle [(A, FieldValue.num 1), (B, FieldValue.num 2)]).latest A
        = some (FieldValue.num 1) ∧
     (s.insert_bundle [(A, FieldValue.num 1), (B, FieldValue.num 2)]).latest B
        = some (FieldValue.num 2)) ∧
    (∀ st ∈ traceStates s bs,
        (st.latest A = some (FieldValue.num 1) ↔
         st.latest B = some (FieldValue.num 2))) := by
  have hbundle : ∀ st : Store,
      (st.insert_bundle [(A, FieldValue.num 1), (B, FieldValue.num 2)]).latest A
          = some (FieldValue.num 1) ∧
      (st.insert_bundle [(A, FieldValue.num 1), (B, FieldValue.num 2)]).latest B
          = some (FieldValue.num 2) := by
    intro st
    constructor
    · apply latest_insert_bundle_const
      · intro p hp hpA
        simp at hp
        rcases hp with h | h
        · rw [h]
        · exfalso; exact hAB (by rw [← hpA, h])
      · exact ⟨(A, FieldValue.num 1), by simp⟩
    · apply latest_insert_bundle_const
      · intro p hp hpB
        simp at hp
        rcases hp with h | h
        · exfalso; exact hAB (by rw [h] at hpB; exact hpB)
        · rw [h]
      · exact ⟨(B, FieldValue.num 2), by simp⟩
  refine ⟨hbundle s, ?_⟩
  apply traceStates_invariant
      (fun st => st.latest A = some (FieldValue.num 1) ↔
                 st.latest B = some (FieldValue.num 2))
  · rw [hs.1, hs.2]
    constructor <;> intro h <;> exact absurd h (by simp)
  · intro st b hb hP
    rcases hbs b hb with h | h
    · rw [h]
      rw [(hbundle st).1, (hbundle st).2]
      simp
    · rw [latest_insert_bundle_untouched st b A (fun p hp => (h p hp).1),
          latest_insert_bundle_untouched st b B (fun p hp => (h p hp).2)]
      exact hP

/-- Witness for C1 at A = 1, B = 2, the empty store and a two-step run. -/
theorem bundle_insert_atomic_witness :
    ((Store.empty.insert_bundle [(1, FieldValue.num 1), (2, FieldValue.num 2)]).latest 1
        = some (FieldValue.num 1) ∧
     (Store.empty.insert_bundle [(1, FieldValue.num 1), (2, FieldValue.num 2)]).latest 2
        = some (FieldValue.num 2)) ∧
    (∀ st ∈ traceStates Store.empty
        [[(1, FieldValue.num 1), (2, FieldValue.num 2)], [(3, FieldValue.num 7)]],
        (st.latest 1 = some (FieldValue.num 1) ↔
         st.latest 2 = some (FieldValue.num 2))) :=
  bundle_insert_atomic 1 2 (by decide) Store.empty
    [[(1, FieldValue.num 1), (2, FieldValue.num 2)], [(3, FieldValue.num 7)]]
    (by intro b hb
        simp at hb
        rcases hb with h | h
        · exact Or.inl h
        · refine Or.inr ?_
          intro p hp
          rw [h] at hp
          simp at hp
          rw [hp]
          exact ⟨by decide, by decide⟩)
    (by exact ⟨rfl, rfl⟩)

/-- Modelled from the spec: the store's internal invariant (spec section 3):
within each TimeSeries the sequence numbers strictly increase, and every
sequence number already handed out is below `nextSeq`. -/
def WellFormed (s : Store) : Prop :=
  ∀ fid, List.Chain' (· < ·) ((s.seriesOf fid).map TimeSeriesEntry.seq) ∧
    ∀ e ∈ s.seriesOf fid, e.seq < s.nextSeq

theorem wellFormed_insertPair (s : Store) (p : Nat × FieldValue)
    (h : WellFormed s) : WellFormed (s.insertPair p) := by
  intro fid
  have hser := seriesOf_insertPair s p fid
  have hnext : (s.insertPair p).nextSeq = s.nextSeq + 1 := rfl
  by_cases hp : p.1 = fid
  · rw [hser, if_pos hp, hnext]
    constructor
    · rw [List.map_append]
      rw [List.chain'_append]
      refine ⟨(h fid).1, List.chain'_singleton _, ?_⟩
      intro x hx y hy
      simp at hy
      subst hy
      have hxmem : x ∈ (s.seriesOf fid).map TimeSeriesEntry.seq :=
        List.mem_of_mem_getLast? hx
      obtain ⟨e, he, hex⟩ := List.mem_map.mp hxmem
      exact hex ▸ (h fid).2 e he
    · intro e he
      simp at he
      rcases he with he | he
      · exact Nat.lt_succ_of_lt ((h fid).2 e he)
      · rw [he]
        exact Nat.lt_succ_self _
  · rw [hser, if_neg hp, hnext]
    exact ⟨(h fid).1, fun e he => Nat.lt_succ_of_lt ((h fid).2 e he)⟩

theorem wellFormed_insert_bundle (s : Store) (b : Bundle)
    (h : WellFormed s) : WellFormed (s.insert_bundle b) := by
  induction b generalizing s with
  | nil => exact h
  | cons p rest ih =>
      have : s.insert_bundle (p :: rest) = (s.insertPair p).insert_bundle rest := rfl
      rw [this]
      exact ih (s.insertPair p) (wellFormed_insertPair s p h)

theorem hasField_insert_bundle (s : Store) (b : Bundle) (fid : Nat)
    (h : hasField s.data fid = true) :
    hasField (s.insert_bundle b).data fid = true := by
  induction b generalizing s with
  | nil => exact h
  | cons p rest ih =>
      have hstep : s.insert_bundle (p :: rest) = (s.insertPair p).insert_bundle rest := rfl
      rw [hstep]
      apply ih
      show hasField (appendToSeries s.data p.1 ⟨s.nextSeq, p.2⟩) fid = true
      rw [hasField_appendToSeries]
      simp [h]

/-- Modelled from the spec: stable FieldIds for the semantic fields named in
spec sections 3 and 6 (the enumeration lives in the missing module
`main_window.subpacket_ids`); the spec fixes only that the ids are distinct
small integers, so distinct small integers are used here. -/
def STATUS_PING_ID : Nat := 0

def MESSAGE_ID : Nat := 1

def TIME_ID : Nat := 2

def CALCULATED_ALTITUDE_ID : Nat := 3

def ACCELERATION_X_ID : Nat := 4

def ACCELERATION_Y_ID : Nat := 5

def ACCELERATION_Z_ID : Nat := 6

def ORIENTATION_1_ID : Nat := 7

def ORIENTATION_2_ID : Nat := 8

def ORIENTATION_3_ID : Nat := 9

def LATITUDE_ID : Nat := 10

def LONGITUDE_ID : Nat := 11

def STATE_ID : Nat := 12

def IS_SIM_ID : Nat := 13

def ROCKET_TYPE_ID : Nat := 14

def GPS_STATUS_ID : Nat := 15

def BAROMETER_STATUS_ID : Nat := 16

def ACCELEROMETER_STATUS_ID : Nat := 17

def IMU_STATUS_ID : Nat := 18

def TEMPERATURE_STATUS_ID : Nat := 19

def DROGUE_IGNITER_CONTINUITY_ID : Nat := 20

def MAIN_IGNITER_CONTINUITY_ID : Nat := 21

def FILE_OPEN_SUCCESS_ID : Nat := 22

/-- Modelled from the spec: the status taxonomy of the missing
`main_window.radio_controller` module (nominal, non-critical failure,
critical failure). -/
def NOMINAL : Nat := 0

def NONCRITICAL_FAILURE : Nat := 1

def CRITICAL_FAILURE : Nat := 2

/-- Modelled from the spec: wire kind tags for the five packet kinds
(spec sections 4.1 and 6); the concrete byte values are not fixed by the
spec, only that they are distinct. -/
def STATUS_PING_TAG : Nat := 0

def MESSAGE_TAG : Nat := 1

def CONFIG_TAG : Nat := 3

def SINGLE_SENSOR_TAG : Nat := 16

def BULK_SENSOR_TAG : Nat := 48

def knownTags : List Nat :=
  [BULK_SENSOR_TAG, SINGLE_SENSOR_TAG, MESSAGE_TAG, CONFIG_TAG, STATUS_PING_TAG]

/-- Big-endian four-byte encoding of one numeric wire field. -/
def encodeWord4 (n : Nat) : List Nat :=
  [n / 16777216 % 256, n / 65536 % 256, n / 256 % 256, n % 256]

def word4 (b0 b1 b2 b3 : Nat) : Nat :=
  ((b0 * 256 + b1) * 256 + b2) * 256 + b3

/-- Decode a run of four-byte numeric wire fields. -/
def decodeWords : List Nat → List Nat
  | b0 :: b1 :: b2 :: b3 :: rest => word4 b0 b1 b2 b3 :: decodeWords rest
  | _ => []

/-- Modelled from the spec: a decoded RawPacket, one variant per wire packet
kind (spec sections 3 and 6); the missing module is
`main_window.packet_parser` together with `connections.debug.radio_packets`. -/
inductive RawPacket where
  | bulkSensor (values : List Nat)
  | singleSensor (fieldCode : Nat) (value : Nat)
  | messagePacket (textBytes : List Nat)
  | configPacket (isSim : Bool) (rocketType : Nat)
  | statusPing (statusType b0 b1 b2 b3 : Nat)
deriving DecidableEq, Repr

/-- Modelled from the spec: the typed decode-error taxonomy — truncated
buffer, unknown kind tag, payload length mismatch (spec sections 4.1
and 7). -/
inductive DecodeError where
  | truncated
  | unknownKind (tag : Nat)
  | lengthMismatch
deriving DecidableEq, Repr

/-- Modelled from the spec: `decode(bytes) → RawPacket | DecodeError`
(spec section 4.1).  Layouts: bulk-sensor carries 11 four-byte numeric
fields; single-sensor a field code plus one four-byte value; message a
length-prefixed text blob; config a boolean flag and a device-type code;
status-ping a status-type code plus four bitmask bytes.  A short payload is
a truncated buffer, an overlong one a length mismatch, and a tag outside
`knownTags` an unknown kind; no partial RawPacket is ever produced. -/
def decode (frame : List Nat) : Except DecodeError RawPacket :=
  match frame with
  | [] => .error .truncated
  | tag :: payload =>
    if tag = BULK_SENSOR_TAG then
      if payload.length = 44 then .ok (.bulkSensor (decodeWords payload))
      else if payload.length < 44 then .error .truncated
      else .error .lengthMismatch
    else if tag = SINGLE_SENSOR_TAG then
      match payload with
      | [code, b0, b1, b2, b3] => .ok (.singleSensor code (word4 b0 b1 b2 b3))
      | _ => if payload.length < 5 then .error .truncated else .error .lengthMismatch
    else if tag = MESSAGE_TAG then
      match payload with
      | [] => .error .truncated
      | len :: rest =>
          if rest.length = len then .ok (.messagePacket rest)
          else if rest.length < len then .error .truncated
          else .error .lengthMismatch
    else if tag = CONFIG_TAG then
      match payload with
      | [isSimByte, rocketType] => .ok (.configPacket (isSimByte ≠ 0) rocketType)
      | _ => if payload.length < 2 then .error .truncated else .error .lengthMismatch
    else if tag = STATUS_PING_TAG then
      match payload with
      | [st, b0, b1, b2, b3] => .ok (.statusPing st b0 b1 b2 b3)
      | _ => if payload.length < 5 then .error .truncated else .error .lengthMismatch
    else .error (.unknownKind tag)

/-- Modelled from the spec: the debug-connection encoder
`radio_packets.bulk_sensor` — a bulk-sensor frame carrying the given 11
numeric fields (the leading timestamp argument of the source encoder is the
first of the 11 wire fields). -/
def bulk_sensor (vs : List Nat) : List Nat :=
  BULK_SENSOR_TAG :: (vs.map encodeWord4).flatten

/-- Modelled from the spec: the debug-connection encoder
`radio_packets.single_sensor` for one (wireFieldCode, value) pair. -/
def single_sensor (fieldCode value : Nat) : List Nat :=
  SINGLE_SENSOR_TAG :: fieldCode :: encodeWord4 value

/-- Modelled from the spec: the debug-connection encoder
`radio_packets.status_ping` for a status-type code and four bitmask
bytes. -/
def status_ping (statusType b0 b1 b2 b3 : Nat) : List Nat :=
  [STATUS_PING_TAG, statusType, b0, b1, b2, b3]

/-- Modelled from the spec: the status value the status-ping handler of the
missing `main_window.radio_controller` records.  The spec pins the
non-critical code to the non-critical taxonomy value, and the integration
test `test_status_ping_packet` (src/tests/integration_tests/test_debug.py)
pins a critical-failure code to be recorded as the non-critical value as
well; so every failure code is stored as `NONCRITICAL_FAILURE`. -/
def storedStatus (statusType : Nat) : Nat :=
  if statusType = NOMINAL then NOMINAL else NONCRITICAL_FAILURE

/-- Bit `i` (most-significant first within each byte) of a list of bitmask
bytes; 0 beyond the last byte. -/
def bitAt (bytes : List Nat) (i : Nat) : Nat :=
  (bytes.getD (i / 8) 0) / 2 ^ (7 - i % 8) % 2

/-- Modelled from the spec: expansion of the status-ping bitmask bytes into
one boolean field per covered FieldId, preserving bit order as field
iteration order (spec section 4.1). -/
def bitFields (bytes : List Nat) : Nat → List Nat → Bundle
  | _, [] => []
  | i, fid :: rest =>
      (fid, FieldValue.num (Int.ofNat (bitAt bytes i))) :: bitFields bytes (i + 1) rest

/-- Modelled from the spec: the Bundle produced for one status-ping packet —
the recorded overall status followed by the per-bit sensor-health and
other-status fields (spec sections 4.1 and 6). -/
def statusPingBundle (statusType b0 b1 b2 b3 : Nat)
    (sensors others : List Nat) : Bundle :=
  (STATUS_PING_ID, FieldValue.num (Int.ofNat (storedStatus statusType))) ::
    bitFields [b0, b1, b2, b3] 0 (sensors ++ others)

/-- Modelled from the spec: the sensor-health FieldIds covered by the
status-ping bitmask, in bit order (`SENSOR_TYPES` of the missing
`main_window.radio_controller`). -/
def SENSOR_TYPES : List Nat :=
  [GPS_STATUS_ID, BAROMETER_STATUS_ID, ACCELEROMETER_STATUS_ID,
   IMU_STATUS_ID, TEMPERATURE_STATUS_ID]

/-- Modelled from the spec: the other-status FieldIds covered by the
status-ping bitmask, after the sensor-health bits
(`OTHER_STATUS_TYPES` of the missing `main_window.radio_controller`). -/
def OTHER_STATUS_TYPES : List Nat :=
  [DROGUE_IGNITER_CONTINUITY_ID, MAIN_IGNITER_CONTINUITY_ID,
   FILE_OPEN_SUCCESS_ID]

/-- Modelled from the spec: the Mapping Layer — translation of a decoded
RawPacket into the Bundle inserted into the store (spec section 4.3).  The
11 bulk-sensor wire fields map positionally onto the leading timestamp
field, calculated altitude, the 3 acceleration axes, the 3 orientation
axes, latitude, longitude and state. -/
def bulkSensorIds : List Nat :=
  [TIME_ID, CALCULATED_ALTITUDE_ID, ACCELERATION_X_ID, ACCELERATION_Y_ID,
   ACCELERATION_Z_ID, ORIENTATION_1_ID, ORIENTATION_2_ID, ORIENTATION_3_ID,
   LATITUDE_ID, LONGITUDE_ID, STATE_ID]

/-- Modelled from the spec: the Bundle a decoded RawPacket translates to
(spec section 4.3). -/
def packetBundle : RawPacket → Bundle
  | .bulkSensor vs => bulkSensorIds.zip (vs.map (fun v => FieldValue.num (Int.ofNat v)))
  | .singleSensor code v => [(code, FieldValue.num (Int.ofNat v))]
  | .messagePacket bytes => [(MESSAGE_ID, FieldValue.text (String.mk (bytes.map Char.ofNat)))]
  | .configPacket isSim rt =>
      [(IS_SIM_ID, FieldValue.flag isSim), (ROCKET_TYPE_ID, FieldValue.num (Int.ofNat rt))]
  | .statusPing st b0 b1 b2 b3 =>
      statusPingBundle st b0 b1 b2 b3 SENSOR_TYPES OTHER_STATUS_TYPES

/-- Modelled from the spec: the EventCounters the claims touch — the
BUNDLE_ADDED counter, the per-kind counters for bulk-sensor and
single-sensor packets, and the decode-error counter (spec sections 4.2,
4.3, 4.6). -/
structure Counters where
  bundleAdded : Nat
  bulkSensorCount : Nat
  singleSensorCount : Nat
  decodeErrors : Nat
deriving DecidableEq, Repr

def Counters.init : Counters := ⟨0, 0, 0, 0⟩

def kindCounterBump (c : Counters) : RawPacket → Counters
  | .bulkSensor _ => { c with bulkSensorCount := c.bulkSensorCount + 1 }
  | .singleSensor _ _ => { c with singleSensorCount := c.singleSensorCount + 1 }
  | _ => c

/-- Modelled from the spec: the pipeline state — the cooperative running
flag the worker threads check each loop iteration, the Time-Series Store
and the EventCounters (spec sections 4.2, 4.3, 5). -/
structure SystemState where
  running : Bool
  store : Store
  counters : Counters
deriving DecidableEq, Repr

def initialSystem : SystemState := ⟨true, Store.empty, Counters.init⟩

def bumpDecodeError (sys : SystemState) : SystemState :=
  { sys with counters := { sys.counters with decodeErrors := sys.counters.decodeErrors + 1 } }

/-- Modelled from the spec: one Read-then-Map pipeline iteration for one
received frame (spec sections 4.2, 4.3, 5): when the stop flag is clear the
frame is decoded; a decode failure bumps the error counter and the loop
continues; a decoded packet's Bundle is inserted atomically and the
BUNDLE_ADDED and per-kind counters are bumped.  When the stop flag is set
nothing happens. -/
def processFrame (sys : SystemState) (frame : List Nat) : SystemState :=
  if sys.running then
    match decode frame with
    | .error _ => bumpDecodeError sys
    | .ok pkt =>
        { sys with
          store := sys.store.insert_bundle (packetBundle pkt),
          counters := kindCounterBump
            { sys.counters with bundleAdded := sys.counters.bundleAdded + 1 } pkt }
  else sys

/-- Modelled from the spec: feeding the transport a sequence of frames, each
flowing through the Read and Map stages in order (spec section 2 data
flow). -/
def feed (sys : SystemState) (frames : List (List Nat)) : SystemState :=
  frames.foldl processFrame sys

/-- Modelled from the spec: `stop()` — the cooperative stop signal observed
by every worker thread (spec sections 4.2 and 5); after it the joined
threads process nothing further. -/
def SystemState.stop (sys : SystemState) : SystemState :=
  { sys with running := false }

/-- The bundles the frames decode to, in decode order (skipping frames that
fail to decode). -/
def decodedBundles (frames : List (List Nat)) : List Bundle :=
  frames.filterMap (fun f => ((decode f).toOption).map packetBundle)

theorem processFrame_running (sys : SystemState) (frame : List Nat) :
    (processFrame sys frame).running = sys.running := by
  unfold processFrame
  by_cases h : sys.running = true
  · rw [if_pos h]
    cases hdec : decode frame with
    | error e => simp only [hdec]; rfl
    | ok pkt => simp only [hdec]
  · rw [if_neg h]

theorem feed_store_insert_order (sys : SystemState) (frames : List (List Nat))
    (hrun : sys.running = true) :
    (feed sys frames).store =
      (decodedBundles frames).foldl Store.insert_bundle sys.store := by
  induction frames generalizing sys with
  | nil => rfl
  | cons f rest ih =>
      have hfeed : feed sys (f :: rest) = feed (processFrame sys f) rest := rfl
      have hrun' : (processFrame sys f).running = true := by
        rw [processFrame_running]; exact hrun
      rw [hfeed, ih (processFrame sys f) hrun']
      cases hdec : decode f with
      | error e =>
          have h1 : decodedBundles (f :: rest) = decodedBundles rest := by
            simp [decodedBundles, hdec, Except.toOption]
          have h2 : (processFrame sys f).store = sys.store := by
            simp [processFrame, hrun, hdec, bumpDecodeError]
          rw [h1, h2]
      | ok pkt =>
          have h1 : decodedBundles (f :: rest) =
              packetBundle pkt :: decodedBundles rest := by
            simp [decodedBundles, hdec, Except.toOption]
          have h2 : (processFrame sys f).store =
              sys.store.insert_bundle (packetBundle pkt) := by
            simp [processFrame, hrun, hdec]
          rw [h1, h2]
          rfl

/-- C2.  End-to-end bulk-sensor ingestion: feeding the Read stage the
encoded bulk-sensor tuple (1,...,11) fires BUNDLE_ADDED once and leaves
latest(altitude) = 2, latest(latitude) = 9, latest(longitude) = 10 and
latest(state) = 11, the 11 wire fields mapping positionally onto the
timestamp, calculated altitude, 3-axis acceleration, 3-axis orientation,
latitude, longitude and state fields. -/
theorem bulk_sensor_end_to_end :
    (feed initialSystem [bulk_sensor [1, 2, 3, 4, 5, 6, 7, 8, 9, 10, 11]]).counters.bundleAdded = 1 ∧
    (feed initialSystem [bulk_sensor [1, 2, 3, 4, 5, 6, 7, 8, 9, 10, 11]]).store.latest
        CALCULATED_ALTITUDE_ID = some (FieldValue.num 2) ∧
    (feed initialSystem [bulk_sensor [1, 2, 3, 4, 5, 6, 7, 8, 9, 10, 11]]).store.latest
        LATITUDE_ID = some (FieldValue.num 9) ∧
    (feed initialSystem [bulk_sensor [1, 2, 3, 4, 5, 6, 7, 8, 9, 10, 11]]).store.latest
        LONGITUDE_ID = some (FieldValue.num 10) ∧
    (feed initialSystem [bulk_sensor [1, 2, 3, 4, 5, 6, 7, 8, 9, 10, 11]]).store.latest
        STATE_ID = some (FieldValue.num 11) := by
  refine ⟨rfl, ?_, ?_, ?_, ?_⟩ <;> rfl

/-- C3.  Store and pipeline invariants: a FieldId → TimeSeries entry, once
created, survives every bundle insertion; well-formedness (strictly
increasing sequence numbers inside every TimeSeries) is preserved by every
bundle insertion; and the running pipeline inserts exactly the decoded
bundles of the fed frames, in decode order. -/
theorem store_pipeline_invariants (s : Store) (b : Bundle)
    (sys : SystemState) (frames : List (List Nat))
    (hwf : WellFormed s) (hrun : sys.running = true) :
    (∀ fid, hasField s.data fid = true → hasField (s.insert_bundle b).data fid = true) ∧
    WellFormed (s.insert_bundle b) ∧
    (feed sys frames).store =
      (decodedBundles frames).foldl Store.insert_bundle sys.store :=
  ⟨fun fid h => hasField_insert_bundle s b fid h,
   wellFormed_insert_bundle s b hwf,
   feed_store_insert_order sys frames hrun⟩

/-- Witness for C3 at a one-field store, a one-pair bundle and a one-frame
feed. -/
theorem store_pipeline_invariants_witness :
    (∀ fid,
        hasField (Store.empty.insertPair (5, FieldValue.num 3)).data fid = true →
        hasField (((Store.empty.insertPair (5, FieldValue.num 3)).insert_bundle
            [(7, FieldValue.num 4)])).data fid = true) ∧
    WellFormed ((Store.empty.insertPair (5, FieldValue.num 3)).insert_bundle
        [(7, FieldValue.num 4)]) ∧
    (feed initialSystem [single_sensor 3 7]).store =
      (decodedBundles [single_sensor 3 7]).foldl Store.insert_bundle
        initialSystem.store :=
  store_pipeline_invariants (Store.empty.insertPair (5, FieldValue.num 3))
    [(7, FieldValue.num 4)] initialSystem [single_sensor 3 7]
    (by
      intro fid
      constructor
      · by_cases h : fid = 5
        · subst h
          simp [Store.insertPair, Store.empty, Store.seriesOf, appendToSeries, seriesIn]
        · have h' : ¬ (5 : Nat) = fid := fun hh => h hh.symm
          simp [Store.insertPair, Store.empty, Store.seriesOf, appendToSeries, seriesIn, h']
      · intro e he
        by_cases h : fid = 5
        · subst h
          simp [Store.insertPair, Store.empty, Store.seriesOf, appendToSeries, seriesIn] at he
          simp [Store.insertPair, he]
        · have h' : ¬ (5 : Nat) = fid := fun hh => h hh.symm
          simp [Store.insertPair, Store.empty, Store.seriesOf, appendToSeries,
            seriesIn, h'] at he)
    rfl

/-- C8.  Shutdown quiescence: once the stop signal has taken effect, feeding
the transport any further bytes changes nothing — no EventCounter is
incremented again and the Time-Series Store is never mutated again. -/
theorem shutdown_quiescent (sys : SystemState) (frames : List (List Nat)) :
    feed (sys.stop) frames = sys.stop := by
  induction frames with
  | nil => rfl
  | cons f rest ih =>
      have hproc : processFrame (sys.stop) f = sys.stop := by
        unfold processFrame
        rw [if_neg]
        simp [SystemState.stop]
      have hfeed : feed (sys.stop) (f :: rest) = feed (processFrame (sys.stop) f) rest := rfl
      rw [hfeed, hproc]
      exact ih

/-- C7.  Decode error handling: an unknown kind tag, an empty (truncated)
buffer, a short bulk-sensor payload and an overlong bulk-sensor payload are
each surfaced as the corresponding typed DecodeError (never a partial
RawPacket, since `decode` returns either an error or a whole packet); and on
any decode failure the running pipeline bumps the decode-error counter and
continues with the remaining frames, so later well-formed packets are
ingested unaffected. -/
theorem decode_error_handling :
    (∀ tag payload, tag ∉ knownTags →
        decode (tag :: payload) = .error (.unknownKind tag)) ∧
    decode [] = .error .truncated ∧
    (∀ payload : List Nat, payload.length < 44 →
        decode (BULK_SENSOR_TAG :: payload) = .error .truncated) ∧
    (∀ payload : List Nat, 44 < payload.length →
        decode (BULK_SENSOR_TAG :: payload) = .error .lengthMismatch) ∧
    (∀ sys frame e rest, sys.running = true → decode frame = .error e →
        feed sys (frame :: rest) = feed (bumpDecodeError sys) rest) := by
  refine ⟨?_, rfl, ?_, ?_, ?_⟩
  · intro tag payload htag
    simp only [knownTags, List.mem_cons, List.not_mem_nil, or_false] at htag
    push_neg at htag
    obtain ⟨h1, h2, h3, h4, h5⟩ := htag
    simp [decode, h1, h2, h3, h4, h5]
  · intro payload hlen
    have hne : ¬ payload.length = 44 := by omega
    simp [decode, hne, hlen]
  · intro payload hlen
    have hne : ¬ payload.length = 44 := by omega
    have hnlt : ¬ payload.length < 44 := by omega
    simp [decode, hne, hnlt]
  · intro sys frame e rest hrun hdec
    have hproc : processFrame sys frame = bumpDecodeError sys := by
      unfold processFrame
      rw [if_pos hrun, hdec]
    show feed (processFrame sys frame) rest = feed (bumpDecodeError sys) rest
    rw [hproc]

/-- Witness for C7 at tag 200, a 3-byte and a 45-byte bulk payload, and a
one-bad-frame feed. -/
theorem decode_error_handling_witness :
    decode (200 :: [1, 2]) = .error (.unknownKind 200) ∧
    decode [] = .error .truncated ∧
    decode (BULK_SENSOR_TAG :: [1, 2, 3]) = .error .truncated ∧
    decode (BULK_SENSOR_TAG :: List.replicate 45 0) = .error .lengthMismatch ∧
    feed initialSystem ([] :: [single_sensor 3 7]) =
      feed (bumpDecodeError initialSystem) [single_sensor 3 7] :=
  ⟨decode_error_handling.1 200 [1, 2] (by decide),
   decode_error_handling.2.1,
   decode_error_handling.2.2.1 [1, 2, 3] (by decide),
   decode_error_handling.2.2.2.1 (List.replicate 45 0) (by simp),
   decode_error_handling.2.2.2.2 initialSystem [] DecodeError.truncated
     [single_sensor 3 7] rfl rfl⟩

/-- Modelled from the spec: processing a run of single-sensor packets all
carrying the same FieldId — each packet's one-pair Bundle is inserted in
arrival order (spec sections 4.1, 4.3). -/
def processSingles (s : Store) (fid : Nat) (vals : List Nat) : Store :=
  vals.foldl (fun st v => st.insert_bundle (packetBundle (.singleSensor fid v))) s

theorem seriesOf_processSingles (s : Store) (fid : Nat) (vals : List Nat) :
    ((processSingles s fid vals).seriesOf fid).map TimeSeriesEntry.val =
      ((s.seriesOf fid).map TimeSeriesEntry.val) ++
        vals.map (fun v => FieldValue.num (Int.ofNat v)) := by
  induction vals generalizing s with
  | nil => simp [processSingles]
  | cons v rest ih =>
      have hstep : processSingles s fid (v :: rest) =
          processSingles (s.insertPair (fid, FieldValue.num (Int.ofNat v))) fid rest := rfl
      rw [hstep, ih]
      have hser := seriesOf_insertPair s (fid, FieldValue.num (Int.ofNat v)) fid
      rw [if_pos rfl] at hser
      rw [hser]
      simp

/-- C5.  After N single-sensor packets for the same fresh FieldId are
processed, `latest` returns the most recently processed value and
`history_since(FieldId, 0)` has length exactly N. -/
theorem single_sensor_latest_history (s : Store) (fid : Nat) (vals : List Nat)
    (hfresh : s.seriesOf fid = []) (hne : vals ≠ []) :
    (processSingles s fid vals).latest fid =
      some (FieldValue.num (Int.ofNat (vals.getLast hne))) ∧
    ((processSingles s fid vals).history_since fid 0).length = vals.length := by
  have hmap := seriesOf_processSingles s fid vals
  rw [hfresh] at hmap
  simp only [List.map_nil, List.nil_append] at hmap
  constructor
  · have h1 : (processSingles s fid vals).latest fid =
        (((processSingles s fid vals).seriesOf fid).map TimeSeriesEntry.val).getLast? := by
      rw [Store.latest, List.getLast?_map]
    rw [h1, hmap, List.getLast?_map]
    rw [List.getLast?_eq_getLast _ hne]
    rfl
  · have hfilter :
        ((processSingles s fid vals).seriesOf fid).filter (fun e => decide (0 ≤ e.seq)) =
          (processSingles s fid vals).seriesOf fid := by
      apply List.filter_eq_self.mpr
      intro e he
      simp
    rw [Store.history_since, hfilter, List.length_map]
    have := congrArg List.length hmap
    simpa using this

/-- Witness for C5 at the empty store, field id 4 and the run [1, 2, 3]. -/
theorem single_sensor_latest_history_witness :
    (processSingles Store.empty 4 [1, 2, 3]).latest 4 = some (FieldValue.num 3) ∧
    ((processSingles Store.empty 4 [1, 2, 3]).history_since 4 0).length = 3 :=
  single_sensor_latest_history Store.empty 4 [1, 2, 3] rfl (by decide)

theorem bitAt_allOnes : ∀ i < 32, bitAt [255, 255, 255, 255] i = 1 := by
  decide

theorem bitFields_mem (bytes : List Nat) (fields : List Nat) (start : Nat) :
    ∀ p ∈ bitFields bytes start fields,
      p.1 ∈ fields ∧ ∃ j, start ≤ j ∧ j < start + fields.length ∧
        p.2 = FieldValue.num (Int.ofNat (bitAt bytes j)) := by
  induction fields generalizing start with
  | nil => intro p hp; simp [bitFields] at hp
  | cons fid rest ih =>
      intro p hp
      simp only [bitFields, List.mem_cons] at hp
      rcases hp with h | h
      · subst h
        exact ⟨List.mem_cons_self _ _, start, le_refl _, by simp, rfl⟩
      · obtain ⟨hmem, j, hj1, hj2, hj3⟩ := ih (start + 1) p h
        exact ⟨List.mem_cons_of_mem _ hmem, j, by omega, by simp at hj2 ⊢; omega, hj3⟩

theorem bitFields_covers (bytes : List Nat) (fields : List Nat) (start : Nat)
    (fid : Nat) (hfid : fid ∈ fields) :
    ∃ p ∈ bitFields bytes start fields, p.1 = fid := by
  induction fields generalizing start with
  | nil => simp at hfid
  | cons f rest ih =>
      rcases List.mem_cons.mp hfid with h | h
      · exact ⟨(f, FieldValue.num (Int.ofNat (bitAt bytes start))),
          List.mem_cons_self _ _, h.symm⟩
      · obtain ⟨p, hp, hpf⟩ := ih (start + 1) h
        exact ⟨p, List.mem_cons_of_mem _ hp, hpf⟩

/-- C6.  Status-ping decode of an all-ones bitmask: every covered
sensor-health and other-status FieldId (one per bit, in bit order) is set to
the healthy value 1, and the non-critical-failure status code is stored as
the non-critical taxonomy value. -/
theorem status_ping_all_ones (s : Store) (sensors others : List Nat)
    (hlen : sensors.length + others.length ≤ 32)
    (hs1 : STATUS_PING_ID ∉ sensors) (hs2 : STATUS_PING_ID ∉ others) :
    (∀ fid ∈ sensors ++ others,
        (s.insert_bundle
            (statusPingBundle NONCRITICAL_FAILURE 255 255 255 255 sensors others)).latest fid
          = some (FieldValue.num 1)) ∧
    (s.insert_bundle
        (statusPingBundle NONCRITICAL_FAILURE 255 255 255 255 sensors others)).latest
        STATUS_PING_ID
      = some (FieldValue.num (Int.ofNat NONCRITICAL_FAILURE)) := by
  constructor
  · intro fid hfid
    have hfid_ne : fid ≠ STATUS_PING_ID := by
      intro h
      rcases List.mem_append.mp hfid with hm | hm
      · exact hs1 (h ▸ hm)
      · exact hs2 (h ▸ hm)
    apply latest_insert_bundle_const
    · intro p hp hpf
      simp only [statusPingBundle, List.mem_cons] at hp
      rcases hp with h | h
      · exfalso
        apply hfid_ne
        rw [← hpf, h]
      · obtain ⟨_, j, hj1, hj2, hj3⟩ :=
          bitFields_mem [255, 255, 255, 255] (sensors ++ others) 0 p h
        have hj32 : j < 32 := by
          simp at hj2
          omega
        rw [hj3, bitAt_allOnes j hj32]
        rfl
    · obtain ⟨p, hp, hpf⟩ :=
        bitFields_covers [255, 255, 255, 255] (sensors ++ others) 0 fid hfid
      exact ⟨p, by simp only [statusPingBundle, List.mem_cons]; exact Or.inr hp, hpf⟩
  · apply latest_insert_bundle_const
    · intro p hp hpf
      simp only [statusPingBundle, List.mem_cons] at hp
      rcases hp with h | h
      · rw [h]
        rfl
      · exfalso
        have hmem :=
          (bitFields_mem [255, 255, 255, 255] (sensors ++ others) 0 p h).1
        rw [hpf] at hmem
        rcases List.mem_append.mp hmem with hm | hm
        · exact hs1 hm
        · exact hs2 hm
    · exact ⟨(STATUS_PING_ID, FieldValue.num (Int.ofNat (storedStatus NONCRITICAL_FAILURE))),
        by simp [statusPingBundle], rfl⟩

/-- Witness for C6 at the empty store and the modelled covered-field
lists. -/
theorem status_ping_all_ones_witness :
    (∀ fid ∈ SENSOR_TYPES ++ OTHER_STATUS_TYPES,
        (Store.empty.insert_bundle
            (statusPingBundle NONCRITICAL_FAILURE 255 255 255 255
              SENSOR_TYPES OTHER_STATUS_TYPES)).latest fid
          = some (FieldValue.num 1)) ∧
    (Store.empty.insert_bundle
        (statusPingBundle NONCRITICAL_FAILURE 255 255 255 255
          SENSOR_TYPES OTHER_STATUS_TYPES)).latest STATUS_PING_ID
      = some (FieldValue.num (Int.ofNat NONCRITICAL_FAILURE)) :=
  status_ping_all_ones Store.empty SENSOR_TYPES OTHER_STATUS_TYPES
    (by decide) (by decide) (by decide)

/-- C9.  A status-ping packet whose status type is CRITICAL_FAILURE, with
all-ones bitmask bytes, leaves lastvalue(STATUS_PING) equal to
NONCRITICAL_FAILURE: even a critical-failure status code is recorded as the
non-critical taxonomy value (pinned by test_status_ping_packet in
src/tests/integration_tests/test_debug.py). -/
theorem status_ping_critical_recorded_noncritical :
    (feed initialSystem [status_ping CRITICAL_FAILURE 255 255 255 255]).store.latest
        STATUS_PING_ID
      = some (FieldValue.num (Int.ofNat NONCRITICAL_FAILURE)) := by
  rfl

/-- Modelled from the spec: the timeout failure `wait` returns when the
expected count is not reached (spec sections 4.6 and 7). -/
inductive TimeoutError where
  | timedOut
deriving DecidableEq, Repr

/-- Modelled from the spec: the blocking loop inside `wait` over discrete
time steps — at step `t` the counter's current value is `c t`; the loop
returns the observed delta as soon as it reaches `ne`, and times out when
the remaining step budget is exhausted (spec section 4.6). -/
def waitFrom (c : Nat → Nat) (base ne : Nat) : Nat → Nat → Except TimeoutError Nat
  | t, 0 => if ne ≤ c t - base then .ok (c t - base) else .error .timedOut
  | t, fuel + 1 =>
      if ne ≤ c t - base then .ok (c t - base) else waitFrom c base ne (t + 1) fuel

/-- Modelled from the spec: `wait(snapshot, name, num_expected, timeout)` of
the Event Bus (spec section 4.6, `util.event_stats` in the tests): `traces`
gives each named counter's value at each discrete time step and `snap` the
snapshot's captured baseline; the call scans steps 0..timeout of the named
counter. -/
def eventWait (traces : String → Nat → Nat) (snap : String → Nat)
    (name : String) (ne timeout : Nat) : Except TimeoutError Nat :=
  waitFrom (traces name) (snap name) ne 0 timeout

theorem waitFrom_ok (c : Nat → Nat) (base ne : Nat) :
    ∀ fuel t d, waitFrom c base ne t fuel = .ok d →
      ne ≤ d ∧ ∃ k, k ≤ fuel ∧ d = c (t + k) - base ∧
        ∀ j < k, c (t + j) - base < ne := by
  intro fuel
  induction fuel with
  | zero =>
      intro t d h
      unfold waitFrom at h
      by_cases hc : ne ≤ c t - base
      · rw [if_pos hc] at h
        injection h with h
        subst h
        exact ⟨hc, 0, le_refl _, by simp, by omega⟩
      · rw [if_neg hc] at h
        exact absurd h (by simp)
  | succ fuel ih =>
      intro t d h
      unfold waitFrom at h
      by_cases hc : ne ≤ c t - base
      · rw [if_pos hc] at h
        injection h with h
        subst h
        exact ⟨hc, 0, Nat.zero_le _, by simp, by omega⟩
      · rw [if_neg hc] at h
        obtain ⟨hne, k, hk1, hk2, hk3⟩ := ih (t + 1) d h
        refine ⟨hne, k + 1, by omega, ?_, ?_⟩
        · have harith : t + (k + 1) = t + 1 + k := by omega
          rw [harith]
          exact hk2
        · intro j hj
          cases j with
          | zero => simpa using Nat.lt_of_not_le hc
          | succ j' =>
              have harith : t + (j' + 1) = t + 1 + j' := by omega
              rw [harith]
              exact hk3 j' (by omega)

theorem waitFrom_timeout (c : Nat → Nat) (base ne : Nat) :
    ∀ fuel t, waitFrom c base ne t fuel = .error .timedOut ↔
      ∀ k ≤ fuel, c (t + k) - base < ne := by
  intro fuel
  induction fuel with
  | zero =>
      intro t
      unfold waitFrom
      by_cases hc : ne ≤ c t - base
      · rw [if_pos hc]
        constructor
        · intro h; exact absurd h (by simp)
        · intro h
          exact absurd (by simpa using h 0 (le_refl _)) (Nat.not_lt_of_le hc)
      · rw [if_neg hc]
        constructor
        · intro _ k hk
          interval_cases k
          simpa using Nat.lt_of_not_le hc
        · intro _; rfl
  | succ fuel ih =>
      intro t
      unfold waitFrom
      by_cases hc : ne ≤ c t - base
      · rw [if_pos hc]
        constructor
        · intro h; exact absurd h (by simp)
        · intro h
          exact absurd (by simpa using h 0 (Nat.zero_le _)) (Nat.not_lt_of_le hc)
      · rw [if_neg hc]
        rw [ih (t + 1)]
        constructor
        · intro h k hk
          cases k with
          | zero => simpa using Nat.lt_of_not_le hc
          | succ k' =>
              have harith : t + (k' + 1) = t + 1 + k' := by omega
              rw [harith]
              exact h k' (by omega)
        · intro h k hk
          have harith : t + 1 + k = t + (k + 1) := by omega
          rw [harith]
          exact h (k + 1) (by omega)

/-- C4.  Event-bus wait semantics: a successful `wait` returns the observed
delta between the named counter and its snapshot baseline, at the first
step where that delta reaches `num_expected`; when the delta never reaches
`num_expected` within the timeout `wait` fails with a TimeoutError; and it
never times out falsely — whenever some step within the timeout reaches the
expected delta, `wait` succeeds. -/
theorem wait_returns_delta_or_times_out (traces : String → Nat → Nat)
    (snap : String → Nat) (name : String) (ne timeout : Nat) :
    (∀ d, eventWait traces snap name ne timeout = .ok d →
        ne ≤ d ∧ ∃ t, t ≤ timeout ∧ d = traces name t - snap name ∧
          ∀ u < t, traces name u - snap name < ne) ∧
    ((∀ t, t ≤ timeout → traces name t - snap name < ne) →
        eventWait traces snap name ne timeout = .error .timedOut) ∧
    ((∃ t, t ≤ timeout ∧ ne ≤ traces name t - snap name) →
        ∃ d, eventWait traces snap name ne timeout = .ok d ∧ ne ≤ d) := by
  refine ⟨?_, ?_, ?_⟩
  · intro d h
    obtain ⟨hne, k, hk1, hk2, hk3⟩ :=
      waitFrom_ok (traces name) (snap name) ne timeout 0 d h
    refine ⟨hne, k, hk1, by simpa using hk2, ?_⟩
    intro u hu
    simpa using hk3 u hu
  · intro h
    apply (waitFrom_timeout (traces name) (snap name) ne timeout 0).mpr
    intro k hk
    simpa using h k hk
  · intro ⟨t, ht, hdelta⟩
    cases hres : eventWait traces snap name ne timeout with
    | error e =>
        exfalso
        cases e
        have := (waitFrom_timeout (traces name) (snap name) ne timeout 0).mp hres t ht
        simp at this
        omega
    | ok d =>
        exact ⟨d, rfl,
          (waitFrom_ok (traces name) (snap name) ne timeout 0 d hres).1⟩

/-- A demonstration counter trace (the named counter has value t at time t)
and snapshot used by the witness below. -/
def demoTrace (_ : String) (t : Nat) : Nat := t

def demoSnap (_ : String) : Nat := 0

/-- Witness for C4 on the demonstration trace: waiting for one
BUNDLE_ADDED occurrence with timeout 5 succeeds with delta 1. -/
theorem wait_returns_delta_or_times_out_witness :
    1 ≤ 1 ∧ ∃ t, t ≤ 5 ∧ 1 = demoTrace "BUNDLE_ADDED" t - demoSnap "BUNDLE_ADDED" ∧
      ∀ u < t, demoTrace "BUNDLE_ADDED" u - demoSnap "BUNDLE_ADDED" < 1 :=
  (wait_returns_delta_or_times_out demoTrace demoSnap "BUNDLE_ADDED" 1 5).1 1 rfl

/-- A constructed connection object of the Co-Pilot profile.  The modelled
device id stands for DEVICE_TYPE_TO_ID[DeviceType.CO_PILOT] of the missing
`main_window.packet_parser` module; its concrete value is immaterial to the
claims. -/
inductive Connection where
  | debugConnection (radioAddress : String) (deviceId : Nat)
      (generateRadioPackets : Bool)
deriving DecidableEq, Repr

def CO_PILOT_DEVICE_ID : Nat := 0

namespace CoPilotProfile

/-- From src/profiles/rockets/co_pilot.py: `construct_serial_connection`
returns None for every com port and baud rate. -/
def construct_serial_connection (com_port : String) (baud_rate : Nat) :
    Option (List (String × Connection)) :=
  none

/-- From src/profiles/rockets/co_pilot.py: `construct_debug_connection`
returns the dictionary holding the single DebugConnection under the key
'CO_PILOT_CONNECTION'. -/
def construct_debug_connection : Option (List (String × Connection)) :=
  some [("CO_PILOT_CONNECTION",
         Connection.debugConnection "CO_PILOT_RADIO_ADDRESS" CO_PILOT_DEVICE_ID true)]

/-- From src/profiles/rockets/co_pilot.py: `construct_sim_connection`
returns None. -/
def construct_sim_connection : Option (List (String × Connection)) :=
  none

end CoPilotProfile

/-- C10.  The Co-Pilot profile supports the debug transport exclusively:
`construct_serial_connection` returns None for every com port and baud
rate, `construct_sim_connection` returns None, and only
`construct_debug_connection` produces a connection — a single
DebugConnection under the key 'CO_PILOT_CONNECTION'. -/
theorem coPilot_connection_construction :
    (∀ (com_port : String) (baud_rate : Nat),
        CoPilotProfile.construct_serial_connection com_port baud_rate = none) ∧
    CoPilotProfile.construct_sim_connection = none ∧
    CoPilotProfile.construct_debug_connection =
      some [("CO_PILOT_CONNECTION",
             Connection.debugConnection "CO_PILOT_RADIO_ADDRESS"
               CO_PILOT_DEVICE_ID true)] :=
  ⟨fun _ _ => rfl, rfl, rfl⟩

end GroundStation
